import Mathlib

/-!
Verification development for the session-orchestration core of the
claude-mission-control repository.

The embedding covers:
* `OutputAnalyzer` (src/unnamed/part_010): the pattern tables, `analyzeOutput`,
  `calculateOutputRate` and `isStillActive`;
* the session-based `ProcessManager` of src/electron/services/ProcessManagerPTY.ts
  (the variant imported by src/electron/main.ts): project/session registry,
  the pty data handler, `stopClaudeCode`, `sendCommand`, `clearSessionOutput`,
  `removeSession`, `removeProject`, `createProject`;
* the persistence gateway of src/electron/services/StateManager.ts (the module
  main.ts imports): `loadState`, which catches every read/parse failure and
  returns null, and `clearState`, which deletes the state file.

Modelling conventions:
* JS `Date` values are `Int` milliseconds; `number` counters are `Nat`/`Int`.
* `uuidv4()` is modelled as a fresh counter (`nextId`): the code relies only on
  the uniqueness of the generated ids, so ids are opaque `Nat` tokens here.
* JS `Map` objects are insertion-ordered association lists.
* `project.sessions` stores the session objects themselves in the source and the
  flat session map aliases them; the model keeps the ids in the project and the
  flat map authoritative, which preserves order, membership and all updates.
* `this.emit(...)`, `pty.write(...)` and `pty.kill()` are recorded in an ordered
  trace; `setTimeout` callbacks become explicit pending timers fired by `fireTimer`.
-/

set_option autoImplicit false

namespace Flow

/-! ### Character-level helpers for the JS regexes of OutputAnalyzer -/

/-- The JS regex `\s` character class (WhiteSpace ∪ LineTerminator); the same
set underlies `String.prototype.trim`. -/
def isJsWs (c : Char) : Bool :=
  c.toNat == 0x20 || c.toNat == 0x09 || c.toNat == 0x0a || c.toNat == 0x0b ||
  c.toNat == 0x0c || c.toNat == 0x0d || c.toNat == 0xa0 || c.toNat == 0x1680 ||
  (0x2000 ≤ c.toNat && c.toNat ≤ 0x200a) ||
  c.toNat == 0x2028 || c.toNat == 0x2029 || c.toNat == 0x202f || c.toNat == 0x205f ||
  c.toNat == 0x3000 || c.toNat == 0xfeff

/-- ASCII case folding. The `/i` flag on a non-unicode JS regex folds `A`-`Z`
onto `a`-`z`; a non-ASCII character never canonicalizes onto an ASCII letter,
so folding only the ASCII range is faithful for these ASCII-only patterns. -/
def lowerChar (c : Char) : Char :=
  if 65 ≤ c.toNat && c.toNat ≤ 90 then Char.ofNat (c.toNat + 32) else c

def lowerL (cs : List Char) : List Char := cs.map lowerChar

/-- Unanchored substring test (the pattern is given already lowercased). -/
def containsSub (pat : List Char) : List Char → Bool
  | [] => pat.isEmpty
  | c :: cs => List.isPrefixOf pat (c :: cs) || containsSub pat cs

/-- The apostrophe character (U+0027). -/
def apos : Char := Char.ofNat 39

/-- After the whitespace run of `\s+`, the next character must be the letter
`i` (the text is lowercased before matching). -/
def iAfterWs : List Char → Bool
  | [] => false
  | c :: cs => if isJsWs c then iAfterWs cs else c == 'i'

/-- `\s+I` on lowercased text: at least one whitespace character, then `i`.
`\s+` is greedy, but backtracking cannot change the outcome because a shorter
whitespace run leaves a whitespace character where `i` is required. -/
def wsThenI : List Char → Bool
  | [] => false
  | c :: cs => isJsWs c && iAfterWs cs

/-- `,?\s+I` on lowercased text. The skipped-comma alternative of `,?` cannot
succeed when the comma branch fails, since a comma is not whitespace. -/
def commaWsI (cs : List Char) : Bool :=
  match cs with
  | c :: rest => if c == ',' then wsThenI rest else wsThenI cs
  | [] => false

/-- The shapes of regex used in OutputAnalyzer's pattern tables. -/
inductive Pat where
  | substr (p : List Char)
  | atStart (p : List Char)
  | endsQ
  | startCommaWsI (p : List Char)
deriving DecidableEq

/-- `/pat/i.test(t)` for an unanchored literal pattern. -/
def containsTokenCI (pat : List Char) (t : String) : Bool :=
  containsSub pat (lowerL t.toList)

/-- `/^pat/i.test(t)` for an anchored literal pattern. -/
def startsTokenCI (pat : List Char) (t : String) : Bool :=
  List.isPrefixOf pat (lowerL t.toList)

/-- `/\?$/.test(t)`: without the `m` flag, `$` matches only the end of input. -/
def endsWithQMark (t : String) : Bool :=
  t.toList.getLast? == some '?'

/-- `/^pat,?\s+I/i.test(t)`. -/
def startsCommaWsICI (pat : List Char) (t : String) : Bool :=
  let l := lowerL t.toList
  List.isPrefixOf pat l && commaWsI (l.drop pat.length)

/-- `RegExp.prototype.test` for the pattern shapes above (patterns are stored
lowercased; the `/i` flag is realised by lowercasing the text). -/
def ptest (p : Pat) (t : String) : Bool :=
  match p with
  | .substr pat => containsTokenCI pat t
  | .atStart pat => startsTokenCI pat t
  | .endsQ => endsWithQMark t
  | .startCommaWsI pat => startsCommaWsICI pat t

def str (s : String) : List Char := s.toList

/-! ### The pattern tables of OutputAnalyzer (src/unnamed/part_010, lines 2-68) -/

def startingPats : List Pat :=
  [.atStart (str "let me"), .atStart (['i', apos] ++ str "ll"), .atStart (str "i will"),
   .startCommaWsI (str "first"), .atStart (str "starting"),
   .startCommaWsI (str "okay"), .startCommaWsI (str "sure")]

def creatingPats : List Pat :=
  [.substr (str "creating"), .substr (str "writing"), .substr (str "adding"),
   .substr (str "implementing"), .substr (str "building"), .substr (str "generating")]

def executingPats : List Pat :=
  [.substr (str "running"), .substr (str "executing"), .substr (str "checking"),
   .substr (str "testing"), .substr (str "compiling"), .substr (str "installing")]

def analyzingPats : List Pat :=
  [.substr (str "analyzing"), .substr (str "looking at"), .substr (str "examining"),
   .substr (str "reading"), .substr (str "investigating"), .substr (str "understanding"),
   .substr (str "checking the")]

def thinkingPats : List Pat :=
  [.substr (str "thinking"), .substr (str "considering"), .substr (str "planning"),
   .substr (str "let me think")]

def completePats : List Pat :=
  [.substr (str "completed"), .substr (str "done"), .substr (str "finished"),
   .substr (str "successfully"), .substr (str "ready"), .substr (str "that should"),
   .substr (str "you can now")]

def waitingPats : List Pat :=
  [.endsQ, .substr (str "would you like"), .substr (str "should i"),
   .substr (str "do you want"), .substr (str "is that"), .substr (str "does that")]

def errorPats : List Pat :=
  [.substr (str "error"), .substr (str "failed"), .substr (str "issue"),
   .substr (str "problem"), .substr (str "unable to"), .substr (str "cannot")]

/-- A `for (const pattern of list) if (pattern.test(t)) return r` loop over a
table whose entries all yield the same result is exactly `List.any`. -/
def anyMatch (ps : List Pat) (t : String) : Bool := ps.any (fun p => ptest p t)

/-- `String.prototype.trim`. -/
def jsTrim (s : String) : String :=
  String.mk (((s.toList.dropWhile isJsWs).reverse.dropWhile isJsWs).reverse)

/-! ### The capture-group extraction of analyzeOutput

`cleanText.match(/(?:verb1|verb2|...)\s+(.+?)(?:\.|$)/i)` — leftmost match wins;
`\s+` is greedy, `(.+?)` is lazy and `.` does not match a line terminator. -/

/-- `.` of a JS regex without the `s` flag: any character except a line terminator. -/
def dotOk (c : Char) : Bool :=
  !(c == Char.ofNat 10 || c == Char.ofNat 13 || c.toNat == 0x2028 || c.toNat == 0x2029)

/-- Lazy `(.+?)` followed by `(?:\.|$)`: the shortest nonempty
line-terminator-free prefix that ends at the end of input or right before a
literal dot. -/
def lazyCap (acc : List Char) : List Char → Option (List Char)
  | [] => none
  | c :: cs =>
    if dotOk c then
      let acc2 := acc ++ [c]
      match cs with
      | [] => some acc2
      | d :: _ => if d == '.' then some acc2 else lazyCap acc2 cs
    else none

/-- Length of the leading whitespace run. -/
def wsRun : List Char → Nat
  | [] => 0
  | c :: cs => if isJsWs c then wsRun cs + 1 else 0

/-- Greedy `\s+`: try the longest whitespace run first, then backtrack down to
a run of one. -/
def wsBacktrack (rest : List Char) : Nat → Option (List Char)
  | 0 => none
  | k + 1 =>
    match lazyCap [] (rest.drop (k + 1)) with
    | some cap => some cap
    | none => wsBacktrack rest k

/-- Try the verb alternation at the current position. No verb of either table
is a prefix of another, so at most one alternative can match here. -/
def tryVerbsAt (verbs : List (List Char)) (t : List Char) : Option (List Char) :=
  match verbs.find? (fun v => List.isPrefixOf v (lowerL t)) with
  | some v =>
    let rest := t.drop v.length
    wsBacktrack rest (wsRun rest)
  | none => none

/-- Leftmost-match scan of the whole regex; the capture keeps the original
(uncased) characters of the text. -/
def scanExtract (verbs : List (List Char)) : List Char → Option (List Char)
  | [] => none
  | c :: cs =>
    match tryVerbsAt verbs (c :: cs) with
    | some cap => some cap
    | none => scanExtract verbs cs

def creatingVerbs : List (List Char) :=
  [str "creating", str "writing", str "adding", str "implementing", str "building"]

def executingVerbs : List (List Char) :=
  [str "running", str "executing", str "testing", str "compiling"]

/-- `const what = match ? match[1] : fallback`. -/
def extractWhat (verbs : List (List Char)) (t : String) (fallback : String) : String :=
  match scanExtract verbs t.toList with
  | some cap => String.mk cap
  | none => fallback

/-! ### OutputAnalyzer methods -/

structure Analysis where
  phase : String
  status : String
deriving DecidableEq, Repr

/-- `OutputAnalyzer.analyzeOutput` (src/unnamed/part_010, lines 70-135). -/
def analyzeOutput (text : String) : Analysis :=
  let cleanText := jsTrim text
  if cleanText = "" then { phase := "idle", status := "" }
  else if anyMatch waitingPats cleanText then
    { phase := "waiting", status := "Waiting for your response..." }
  else if anyMatch completePats cleanText then
    { phase := "complete", status := "Task completed" }
  else if anyMatch errorPats cleanText then
    { phase := "working", status := "Handling error..." }
  else if anyMatch startingPats cleanText then
    { phase := "thinking", status := "Starting task..." }
  else if anyMatch creatingPats cleanText then
    { phase := "working"
      status := "Creating " ++ extractWhat creatingVerbs cleanText "files" ++ "..." }
  else if anyMatch executingPats cleanText then
    { phase := "working"
      status := "Running " ++ extractWhat executingVerbs cleanText "commands" ++ "..." }
  else if anyMatch analyzingPats cleanText then
    { phase := "thinking", status := "Analyzing code..." }
  else if anyMatch thinkingPats cleanText then
    { phase := "thinking", status := "Thinking..." }
  else { phase := "working", status := "Working..." }

/-- `Math.round(chars / win)` for natural operands (JS rounds half up). -/
def jsRound (chars win : Nat) : Nat := (2 * chars + win) / (2 * win)

/-- `OutputAnalyzer.calculateOutputRate` (src/unnamed/part_010, lines 138-147).
Samples are (text, timestamp-in-ms); `now` is the current time in ms.
String length counts characters, as the sampled chunks are treated as plain
text (identical to JS `.length` on the BMP text involved). -/
def calculateOutputRate (recentOutputs : List (String × Int)) (now : Int)
    (windowSeconds : Nat := 5) : Nat :=
  let windowStart : Int := now - (windowSeconds : Int) * 1000
  let recentChars := (recentOutputs.filter (fun o => windowStart < o.2)).foldl
      (fun sum o => sum + o.1.length) 0
  jsRound recentChars windowSeconds

/-- `OutputAnalyzer.isStillActive` (src/unnamed/part_010, lines 150-180). -/
def isStillActive (lastOutput : String) (timeSinceLastOutput : Int) : Bool :=
  if anyMatch waitingPats lastOutput then false
  else if anyMatch completePats lastOutput then false
  else if timeSinceLastOutput > 30000 then
    anyMatch (startingPats ++ thinkingPats) lastOutput
  else true

/-! ### Insertion-ordered association lists, modelling JS `Map` -/

def lookupA {α : Type} (k : Nat) : List (Nat × α) → Option α
  | [] => none
  | (k2, v) :: rest => if k2 = k then some v else lookupA k rest

def insertA {α : Type} (k : Nat) (v : α) : List (Nat × α) → List (Nat × α)
  | [] => [(k, v)]
  | (k2, v2) :: rest => if k2 = k then (k, v) :: rest else (k2, v2) :: insertA k v rest

def eraseA {α : Type} (k : Nat) (m : List (Nat × α)) : List (Nat × α) :=
  m.filter (fun kv => kv.1 != k)

/-! ### The ProcessManager of src/electron/services/ProcessManagerPTY.ts
(the session-based class at lines 556-1131 of the concatenated file, the one
`main.ts` imports). -/

/-- `ProgressState` (ProcessManagerPTY.ts lines 564-571). -/
structure ProgressState where
  isActive : Bool
  status : String
  startTime : Option Int
  lastOutputTime : Option Int
  outputRate : Nat
  phase : String
deriving DecidableEq, Repr

/-- `ClaudeSession` (ProcessManagerPTY.ts lines 573-588). `claudeProcess` holds
the pty handle id when attached; `emitTimer` records whether a batch-emit
timeout is currently scheduled. -/
structure ClaudeSession where
  id : Nat
  projectId : Nat
  name : String
  description : Option String := none
  status : String
  claudeProcess : Option Nat := none
  lastCommand : Option String := none
  output : List String := []
  progressState : Option ProgressState := none
  createdAt : Int
  updatedAt : Int
  emitTimer : Bool := false
  pendingOutput : String := ""
deriving DecidableEq, Repr

/-- `Project` (ProcessManagerPTY.ts lines 590-599). The source stores the
session objects; the flat session map aliases them, so the model keeps the ids
here and the flat map authoritative. -/
structure Project where
  id : Nat
  name : String
  path : String
  sessionIds : List Nat := []
  createdAt : Int
  updatedAt : Int
deriving DecidableEq, Repr

/-- Observable actions: `this.emit(...)` events plus writes/kills on the pty. -/
inductive Event where
  | projectCreated (projectId : Nat)
  | projectRemoved (projectId : Nat)
  | sessionCreated (projectId sessionId : Nat)
  | sessionRemoved (projectId sessionId : Nat)
  | outputEv (sessionId projectId : Nat) (output : String)
  | outputCleared (sessionId projectId : Nat)
  | progressEv (sessionId projectId : Nat) (ps : ProgressState)
  | statusEv (sessionId projectId : Nat) (status : String)
  | ptyWrite (sessionId : Nat) (bytes : String)
  | ptyKill (sessionId : Nat) (handle : Nat)
deriving DecidableEq, Repr

/-- Pending `setTimeout` callbacks, with their delay in ms. -/
inductive TimerKind where
  | killAfterGrace (sessionId : Nat) (delayMs : Nat)
  | emitBatch (sessionId : Nat) (delayMs : Nat)
deriving DecidableEq, Repr

/-- The mutable state of a `ProcessManager` instance plus its environment:
`alive` tracks spawned OS processes that have neither exited nor been killed,
`events` is the ordered trace of emitted events and pty actions. -/
structure PMState where
  projects : List (Nat × Project) := []
  sessions : List (Nat × ClaudeSession) := []
  recentOutputs : List (Nat × List (String × Int)) := []
  activeDataHandlers : List Nat := []
  nextId : Nat := 0
  nextHandle : Nat := 0
  alive : List Nat := []
  timers : List TimerKind := []
  events : List Event := []
deriving DecidableEq, Repr

def updateSession (sid : Nat) (s : ClaudeSession) (st : PMState) : PMState :=
  { st with sessions := insertA sid s st.sessions }

/-- The file-system facts `createProject` consults (`fs.existsSync`,
`fs.statSync(..).isDirectory()`). -/
structure FileSystem where
  existsSync : String → Bool
  isDirectory : String → Bool

/-- `ProcessManager.createProject` (lines 672-696). `uuidv4()` is the fresh id
`st.nextId`. There is no duplicate-path check. -/
def createProject (fsys : FileSystem) (name path : String) (now : Int) (st : PMState) :
    Except String (Project × PMState) :=
  if !fsys.existsSync path then
    .error ("Project path does not exist: " ++ path)
  else if !fsys.isDirectory path then
    .error ("Project path is not a directory: " ++ path)
  else
    let pid := st.nextId
    let project : Project :=
      { id := pid, name := name, path := path, sessionIds := [],
        createdAt := now, updatedAt := now }
    .ok (project,
      { st with
          nextId := st.nextId + 1,
          projects := insertA pid project st.projects,
          events := st.events ++ [.projectCreated pid] })

/-- `ProcessManager.createSession` (lines 712-741). -/
def createSession (projectId : Nat) (name : String) (description : Option String)
    (now : Int) (st : PMState) : Except String (ClaudeSession × PMState) :=
  match lookupA projectId st.projects with
  | none => .error "Project not found"
  | some project =>
    let sid := st.nextId
    let session : ClaudeSession :=
      { id := sid, projectId := projectId, name := name, description := description,
        status := "idle", output := [], createdAt := now, updatedAt := now }
    .ok (session,
      { st with
          nextId := st.nextId + 1,
          projects := insertA projectId
            { project with sessionIds := project.sessionIds ++ [sid] } st.projects,
          sessions := insertA sid session st.sessions,
          events := st.events ++ [.sessionCreated projectId sid] })

def eotStr : String := "\x04"

/-- `ProcessManager.stopClaudeCode` (lines 997-1037): silent no-op without an
attached process; otherwise clears the handler flag, cancels a pending batch
timer, writes EOT (0x04), schedules the 2000 ms forced-kill timeout, and
immediately sets `claudeProcess = undefined`. -/
def stopClaudeCode (sid : Nat) (st : PMState) : PMState :=
  match lookupA sid st.sessions with
  | none => st
  | some session =>
    match session.claudeProcess with
    | none => st
    | some _handle =>
      let st1 := { st with activeDataHandlers := st.activeDataHandlers.filter (fun k => k != sid) }
      let st2 :=
        if session.emitTimer then
          { st1 with timers := st1.timers.filter (fun t => t != TimerKind.emitBatch sid 16) }
        else st1
      let st3 := { st2 with events := st2.events ++ [Event.ptyWrite sid eotStr] }
      let st4 := { st3 with timers := st3.timers ++ [TimerKind.killAfterGrace sid 2000] }
      updateSession sid
        { session with emitTimer := false, pendingOutput := "", claudeProcess := none } st4

/-- Firing a pending `setTimeout` callback. The grace-kill callback re-reads
`session.claudeProcess` at fire time and kills only if still attached; the
batch callback emits the accumulated `pendingOutput` if nonempty. -/
def fireTimer (t : TimerKind) (st : PMState) : PMState :=
  match t with
  | .killAfterGrace sid _ =>
    match lookupA sid st.sessions with
    | none => st
    | some session =>
      match session.claudeProcess with
      | none => st
      | some h =>
        let st1 := { st with
          alive := st.alive.filter (fun p => p != h),
          events := st.events ++ [.ptyKill sid h] }
        updateSession sid { session with claudeProcess := none } st1
  | .emitBatch sid _ =>
    match lookupA sid st.sessions with
    | none => st
    | some session =>
      let batched := session.pendingOutput
      if batched = "" then updateSession sid { session with emitTimer := false } st
      else
        let st1 := { st with events := st.events ++ [.outputEv sid session.projectId batched] }
        updateSession sid { session with pendingOutput := "", emitTimer := false } st1

/-- Last `n` entries, JS `array.slice(-n)` for `n > 0`. -/
def lastN {α : Type} (n : Nat) (l : List α) : List α := l.drop (l.length - n)

/-- The output-log update of the onData handler (lines 915, 938-949): push the
chunk, keep only the last 1000 entries, and if the total size still exceeds
10 MiB keep only the last 100 entries. -/
def pushWithEviction (output : List String) (data : String) : List String :=
  let output1 := output ++ [data]
  let output2 := if output1.length > 1000 then lastN 1000 output1 else output1
  let totalSize := output2.foldl (fun sum s => sum + s.length) (0 : Nat)
  if totalSize > 10 * 1024 * 1024 then lastN 100 output2 else output2

/-- The `onData` handler registered by `startClaudeCode` (lines 892-961).
It returns unchanged state when the session is gone or detached; otherwise it
appends the raw chunk to the output log with eviction, accumulates the chunk
into `pendingOutput`, and schedules the 16 ms batch-emit timer if none is
pending. Classification of the chunk is skipped in this variant of the code
(its comment: "Skip heavy processing for now to isolate the issue"), so
`progressState` and `recentOutputs` are not touched here. -/
def onData (sid : Nat) (data : String) (st : PMState) : PMState :=
  match lookupA sid st.sessions with
  | none => st
  | some currentSession =>
    if currentSession.claudeProcess.isNone then st
    else
      let timers :=
        if currentSession.emitTimer then st.timers
        else st.timers ++ [TimerKind.emitBatch sid 16]
      updateSession sid
        { currentSession with
            output := pushWithEviction currentSession.output data,
            emitTimer := true,
            pendingOutput := currentSession.pendingOutput ++ data }
        { st with timers := timers }

/-- `ProcessManager.sendCommand` (lines 1039-1086): throws on an unknown or
detached session, writes the raw keystrokes to the pty, and resets
`progressState` only when the command is exactly `"\r"` or `"\n"` and a
`progressState` already exists. -/
def sendCommand (sid : Nat) (command : String) (now : Int) (st : PMState) :
    Except String PMState :=
  match lookupA sid st.sessions with
  | none => .error "Session not found"
  | some session =>
    match session.claudeProcess with
    | none => .error "Claude not running for session"
    | some _ =>
      let session1 := { session with status := "active", updatedAt := now }
      let st1 := { st with events := st.events ++ [.ptyWrite sid command] }
      let next :
          ClaudeSession × PMState :=
        if command = "\x0d" ∨ command = "\n" then
          match session1.progressState with
          | some _ =>
            let ps : ProgressState :=
              { isActive := true, status := "Processing command...",
                startTime := some now, lastOutputTime := some now,
                outputRate := 0, phase := "thinking" }
            ({ session1 with progressState := some ps },
             { st1 with events := st1.events ++ [.progressEv sid session1.projectId ps] })
          | none => (session1, st1)
        else (session1, st1)
      let st2 := updateSession sid next.1 next.2
      .ok { st2 with events := st2.events ++ [.statusEv sid session1.projectId "active"] }

/-- `ProcessManager.clearSessionOutput` (lines 1106-1114): empties the output
log and emits `output:cleared`; nothing else is touched. -/
def clearSessionOutput (sid : Nat) (now : Int) (st : PMState) : PMState :=
  match lookupA sid st.sessions with
  | none => st
  | some session =>
    let st1 := updateSession sid { session with output := [], updatedAt := now } st
    { st1 with events := st1.events ++ [.outputCleared sid session.projectId] }

/-- `ProcessManager.removeSession` (lines 743-765). -/
def removeSession (sid : Nat) (st : PMState) : Bool × PMState :=
  match lookupA sid st.sessions with
  | none => (false, st)
  | some session =>
    let st1 := if session.claudeProcess.isSome then stopClaudeCode sid st else st
    let st2 := { st1 with
      recentOutputs := st1.recentOutputs.filter (fun kv => kv.1 != sid),
      activeDataHandlers := st1.activeDataHandlers.filter (fun k => k != sid) }
    let st3 :=
      match lookupA session.projectId st2.projects with
      | some project =>
        let project2 :=
          { project with sessionIds := project.sessionIds.filter (fun k => k != sid) }
        { st2 with projects := insertA session.projectId project2 st2.projects }
      | none => st2
    let st4 := { st3 with sessions := eraseA sid st3.sessions }
    (true, { st4 with events := st4.events ++ [.sessionRemoved session.projectId sid] })

/-- `ProcessManager.removeProject` (lines 698-710). The `for..of` loop iterates
the session array captured at loop entry; `removeSession` replaces
`project.sessions` with a fresh filtered array, so the captured list is the
original one. -/
def removeAll (ids : List Nat) (st : PMState) : PMState :=
  ids.foldl (fun acc sid => (removeSession sid acc).2) st

def removeProject (pid : Nat) (st : PMState) : Bool × PMState :=
  match lookupA pid st.projects with
  | none => (false, st)
  | some project =>
    let st1 := removeAll project.sessionIds st
    let st2 := { st1 with projects := eraseA pid st1.projects }
    (true, { st2 with events := st2.events ++ [.projectRemoved pid] })

/-! ### Persistence gateway (src/electron/services/StateManager.ts, the module
main.ts imports) -/

/-- A JSON document. -/
inductive Json where
  | null
  | jbool (b : Bool)
  | jnum (n : Int)
  | jstr (s : String)
  | jarr (elems : List Json)
  | jobj (fields : List (String × Json))

def jlookup (k : String) : List (String × Json) → Option Json
  | [] => none
  | (k2, v) :: rest => if k2 = k then some v else jlookup k rest

/-- The state file on disk, classified by the outcome of `loadState`'s first
two steps: absent (`fs.readFile` rejects); present but `JSON.parse` throws (an
empty file is not valid JSON); or parsed to a document. -/
inductive StateFile where
  | missing
  | invalid (raw : String)
  | valid (doc : Json)

/-- The post-parse shape requirement of `loadState` (lines 60-71): the code
evaluates `parsedState.projects.map(...)` and `parsedState.commandHistory.map(...)`,
which succeed exactly when the document is an object whose `projects` and
`commandHistory` fields are arrays — on anything else `.map` throws a
`TypeError`, landing in the catch. The per-entry date wrapping
(`new Date(project.createdAt)`) never throws in JS and is kept abstract. -/
def decodeState (doc : Json) : Option (List Json × List Json) :=
  match doc with
  | .jobj fields =>
    match jlookup "projects" fields, jlookup "commandHistory" fields with
    | some (.jarr ps), some (.jarr cs) => some (ps, cs)
    | _, _ => none
  | _ => none

/-- `StateManager.loadState` (src/electron/services/StateManager.ts, lines
54-76): read the file, `JSON.parse` it, rebuild the projects and command
history; any error is caught and `null` returned. The pair is (restored state
or none, the file after the call) — `loadState` performs no write or unlink,
so the file component is always the input unchanged. -/
def loadState (file : StateFile) : Option (List Json × List Json) × StateFile :=
  match file with
  | .missing => (none, .missing)
  | .invalid raw => (none, .invalid raw)
  | .valid doc =>
    match decodeState doc with
    | some s => (some s, .valid doc)
    | none => (none, .valid doc)

/-- `StateManager.clearState` (lines 100-106): `fs.unlink` the state file,
swallowing the missing-file error, so the file is gone whatever it held.
No code on the load path calls it. -/
def clearState (_file : StateFile) : StateFile := .missing

/-! ### Spec-side pattern predicates (§4.2), for comparison with the code's
pattern tables. Each is the spec's rule written as an explicit disjunction. -/

/-- Rule (1): a question — text ending in a question mark or containing an
explicit yes/no solicitation phrase. -/
def specWaiting (t : String) : Bool :=
  endsWithQMark t || containsTokenCI (str "would you like") t ||
  containsTokenCI (str "should i") t || containsTokenCI (str "do you want") t ||
  containsTokenCI (str "is that") t || containsTokenCI (str "does that") t

/-- Rule (2): completion phrases. -/
def specComplete (t : String) : Bool :=
  containsTokenCI (str "completed") t || containsTokenCI (str "done") t ||
  containsTokenCI (str "finished") t || containsTokenCI (str "successfully") t ||
  containsTokenCI (str "ready") t || containsTokenCI (str "that should") t ||
  containsTokenCI (str "you can now") t

/-- Rule (3): error/failure phrases. -/
def specError (t : String) : Bool :=
  containsTokenCI (str "error") t || containsTokenCI (str "failed") t ||
  containsTokenCI (str "issue") t || containsTokenCI (str "problem") t ||
  containsTokenCI (str "unable to") t || containsTokenCI (str "cannot") t

/-- Rule (4): task-opening phrases. -/
def specTaskOpening (t : String) : Bool :=
  startsTokenCI (str "let me") t || startsTokenCI (['i', apos] ++ str "ll") t ||
  startsTokenCI (str "i will") t || startsCommaWsICI (str "first") t ||
  startsTokenCI (str "starting") t || startsCommaWsICI (str "okay") t ||
  startsCommaWsICI (str "sure") t

/-- Rule (5): creating/writing/building action verbs. -/
def specCreating (t : String) : Bool :=
  containsTokenCI (str "creating") t || containsTokenCI (str "writing") t ||
  containsTokenCI (str "adding") t || containsTokenCI (str "implementing") t ||
  containsTokenCI (str "building") t || containsTokenCI (str "generating") t

/-- Rule (6): execution verbs. -/
def specExecuting (t : String) : Bool :=
  containsTokenCI (str "running") t || containsTokenCI (str "executing") t ||
  containsTokenCI (str "checking") t || containsTokenCI (str "testing") t ||
  containsTokenCI (str "compiling") t || containsTokenCI (str "installing") t

/-- Rule (7): analysis verbs. -/
def specAnalyzing (t : String) : Bool :=
  containsTokenCI (str "analyzing") t || containsTokenCI (str "looking at") t ||
  containsTokenCI (str "examining") t || containsTokenCI (str "reading") t ||
  containsTokenCI (str "investigating") t || containsTokenCI (str "understanding") t ||
  containsTokenCI (str "checking the") t

/-- Rule (8): explicit thinking verbs. -/
def specThinking (t : String) : Bool :=
  containsTokenCI (str "thinking") t || containsTokenCI (str "considering") t ||
  containsTokenCI (str "planning") t || containsTokenCI (str "let me think") t

/-- The classifier as the spec states it (§4.2): the nine rules applied in the
stated priority order, first match wins, with the idle case for empty
(whitespace-only) text. Stated from the spec's words for comparison with
`analyzeOutput`, which is translated from the code. -/
def analyzeOutputSpec (text : String) : Analysis :=
  let t := jsTrim text
  if t = "" then { phase := "idle", status := "" }
  else if specWaiting t then { phase := "waiting", status := "Waiting for your response..." }
  else if specComplete t then { phase := "complete", status := "Task completed" }
  else if specError t then { phase := "working", status := "Handling error..." }
  else if specTaskOpening t then { phase := "thinking", status := "Starting task..." }
  else if specCreating t then
    { phase := "working", status := "Creating " ++ extractWhat creatingVerbs t "files" ++ "..." }
  else if specExecuting t then
    { phase := "working", status := "Running " ++ extractWhat executingVerbs t "commands" ++ "..." }
  else if specAnalyzing t then { phase := "thinking", status := "Analyzing code..." }
  else if specThinking t then { phase := "thinking", status := "Thinking..." }
  else { phase := "working", status := "Working..." }

/-! ### Concrete states and claim formalizations used by the per-claim theorems -/

/-- A session whose pty produced output while the classifier-equipped progress
pipeline is expected to run: attached process, progress state from start-up. -/
def c1PS : ProgressState :=
  { isActive := true, status := "Starting Claude...", startTime := some 1000,
    lastOutputTime := some 1000, outputRate := 0, phase := "thinking" }

def c1Session : ClaudeSession :=
  { id := 1, projectId := 0, name := "s1", status := "active", claudeProcess := some 0,
    output := [], progressState := some c1PS, createdAt := 1000, updatedAt := 1000 }

def c1State : PMState :=
  { projects := [(0, { id := 0, name := "p", path := "/tmp/p", sessionIds := [1],
                       createdAt := 0, updatedAt := 0 })],
    sessions := [(1, c1Session)], recentOutputs := [(1, [])],
    activeDataHandlers := [1], nextId := 2, nextHandle := 1, alive := [0] }

/-- A session attached to OS process 7 that never exits on its own. -/
def c2Session : ClaudeSession :=
  { id := 1, projectId := 0, name := "s1", status := "active", claudeProcess := some 7,
    output := [], createdAt := 0, updatedAt := 0 }

def c2State : PMState :=
  { sessions := [(1, c2Session)], alive := [7], nextHandle := 8 }

/-- A finished progress state (as the silence monitor leaves it). -/
def c3PS : ProgressState :=
  { isActive := false, status := "Ready", startTime := some 500,
    lastOutputTime := some 800, outputRate := 0, phase := "complete" }

def c3SessionA : ClaudeSession :=
  { id := 1, projectId := 0, name := "s1", status := "active", claudeProcess := some 3,
    progressState := some c3PS, createdAt := 0, updatedAt := 0 }

def c3SessionB : ClaudeSession :=
  { id := 2, projectId := 0, name := "s2", status := "active", claudeProcess := some 4,
    progressState := none, createdAt := 0, updatedAt := 0 }

def c3State : PMState :=
  { sessions := [(1, c3SessionA), (2, c3SessionB)], alive := [3, 4], nextHandle := 5 }

/-- The byte string ends in a carriage return. -/
def endsInCR (s : String) : Bool := s.toList.getLast? == some (Char.ofNat 13)

/-- What C3 requires of the state after `sendCommand`: the call succeeded and
the session's ProgressState was reset to phase=thinking, isActive=true with a
fresh startTime. -/
def progressResetTo (sid : Nat) (now : Int) (r : Except String PMState) : Bool :=
  match r with
  | .error _ => false
  | .ok st2 =>
    match lookupA sid st2.sessions with
    | none => false
    | some s =>
      match s.progressState with
      | none => false
      | some ps => ps.phase == "thinking" && ps.isActive && ps.startTime == some now

/-- A session with recorded recent-output samples and a nonempty output log. -/
def c4Session : ClaudeSession :=
  { id := 1, projectId := 0, name := "s1", status := "active", claudeProcess := some 5,
    output := ["a", "b"], createdAt := 0, updatedAt := 0 }

def c4State : PMState :=
  { sessions := [(1, c4Session)], recentOutputs := [(1, [("hello world", 10000)])],
    alive := [5], nextHandle := 6 }

/-- What C4 asserts of the progress tracking: after the clear, the recorded
recent-output samples contribute nothing to the next computed output rate. -/
def clearResetsRateTracking (sid : Nat) (now rateTime : Int) (st : PMState) : Prop :=
  calculateOutputRate ((lookupA sid (clearSessionOutput sid now st).recentOutputs).getD [])
    rateTime = 0

def c6Session : ClaudeSession :=
  { id := 1, projectId := 0, name := "s1", status := "active", claudeProcess := some 0,
    output := ["a"], createdAt := 0, updatedAt := 0 }

def c6State : PMState :=
  { sessions := [(1, c6Session)], alive := [0], nextHandle := 1 }

def c9Project : Project :=
  { id := 0, name := "p", path := "/tmp/p", sessionIds := [1], createdAt := 0, updatedAt := 0 }

def c9Session : ClaudeSession :=
  { id := 1, projectId := 0, name := "s1", status := "active", claudeProcess := some 6,
    output := [], createdAt := 0, updatedAt := 0 }

def c9State : PMState :=
  { projects := [(0, c9Project)], sessions := [(1, c9Session)],
    recentOutputs := [(1, [])], activeDataHandlers := [1],
    nextId := 2, nextHandle := 7, alive := [6] }

/-- A file system on which every path is an existing directory. -/
def allDirs : FileSystem := { existsSync := fun _ => true, isDirectory := fun _ => true }

/-- A registry that already holds a project at path `/tmp/p`. -/
def c10State : PMState :=
  { projects := [(0, { id := 0, name := "existing", path := "/tmp/p", sessionIds := [],
                       createdAt := 0, updatedAt := 0 })],
    nextId := 1 }

/-- A document whose `projects` field is present but not an array. -/
def notAnArrayDoc : Json := Json.jobj [("projects", Json.jstr "not-an-array")]

/-! ## Lemmas about the association-list and eviction primitives -/

theorem lookupA_insertA_self {α : Type} (k : Nat) (v : α) (m : List (Nat × α)) :
    lookupA k (insertA k v m) = some v := by
  induction m with
  | nil => simp [insertA, lookupA]
  | cons kv rest ih =>
    obtain ⟨k2, v2⟩ := kv
    by_cases h : k2 = k
    · simp [insertA, h, lookupA]
    · simp [insertA, h, lookupA, ih]

theorem lookupA_insertA_ne {α : Type} (k k2 : Nat) (v : α) (m : List (Nat × α))
    (h : k2 ≠ k) : lookupA k (insertA k2 v m) = lookupA k m := by
  induction m with
  | nil => simp [insertA, lookupA, h]
  | cons kv rest ih =>
    obtain ⟨k3, v3⟩ := kv
    by_cases h2 : k3 = k2
    · subst h2
      simp [insertA, lookupA, h]
    · by_cases h3 : k3 = k
      · simp [insertA, h2, lookupA, h3, Ne.symm h]
      · simp [insertA, h2, lookupA, h3, ih]

theorem lookupA_eraseA_self {α : Type} (k : Nat) (m : List (Nat × α)) :
    lookupA k (eraseA k m) = none := by
  induction m with
  | nil => simp [eraseA, lookupA]
  | cons kv rest ih =>
    obtain ⟨k2, v2⟩ := kv
    by_cases h : k2 = k
    · subst h
      simpa [eraseA, List.filter, bne_self_eq_false] using ih
    · have hb : (k2 != k) = true := by simpa using h
      simpa [eraseA, List.filter, hb, lookupA, h] using ih

theorem lookupA_eraseA_ne {α : Type} (k k2 : Nat) (m : List (Nat × α))
    (h : k2 ≠ k) : lookupA k (eraseA k2 m) = lookupA k m := by
  induction m with
  | nil => simp [eraseA, lookupA]
  | cons kv rest ih =>
    obtain ⟨k3, v3⟩ := kv
    by_cases h2 : k3 = k2
    · subst h2
      have h3 : k3 ≠ k := h
      simpa [eraseA, List.filter, bne_self_eq_false, lookupA, h3] using ih
    · have hb2 : (k3 != k2) = true := by simpa using h2
      by_cases h3 : k3 = k
      · subst h3
        simp [eraseA, List.filter, hb2, lookupA]
      · simpa [eraseA, List.filter, hb2, lookupA, h3] using ih

theorem lastN_length_le {α : Type} (n : Nat) (l : List α) : (lastN n l).length ≤ n := by
  simp [lastN]
  omega

theorem lastN_suffix {α : Type} (n : Nat) (l : List α) : lastN n l <:+ l :=
  List.drop_suffix _ _

theorem lastN_getLast? {α : Type} (n : Nat) (l : List α) (hn : 1 ≤ n) (hl : l ≠ []) :
    (lastN n l).getLast? = l.getLast? := by
  have hlpos : 0 < l.length := List.length_pos.mpr hl
  have hlen : 0 < (lastN n l).length := by
    simp [lastN]
    omega
  have hne : lastN n l ≠ [] := List.length_pos.mp hlen
  obtain ⟨t, ht⟩ := lastN_suffix n l
  calc (lastN n l).getLast?
      = (t ++ lastN n l).getLast? := (List.getLast?_append_of_ne_nil t hne).symm
    _ = l.getLast? := by rw [ht]

theorem pushWithEviction_spec (output : List String) (data : String) :
    (pushWithEviction output data).length ≤ 1000 ∧
    (pushWithEviction output data).getLast? = some data ∧
    pushWithEviction output data <:+ output ++ [data] := by
  have h1ne : output ++ [data] ≠ [] := by simp
  have h1last : (output ++ [data]).getLast? = some data := by simp
  have h2len : ∀ (o2 : List String), o2.length ≤ 1000 → o2.getLast? = some data →
      o2 <:+ output ++ [data] →
      (if o2.foldl (fun sum s => sum + s.length) (0 : Nat) > 10 * 1024 * 1024 then
          lastN 100 o2 else o2).length ≤ 1000 ∧
      (if o2.foldl (fun sum s => sum + s.length) (0 : Nat) > 10 * 1024 * 1024 then
          lastN 100 o2 else o2).getLast? = some data ∧
      (if o2.foldl (fun sum s => sum + s.length) (0 : Nat) > 10 * 1024 * 1024 then
          lastN 100 o2 else o2) <:+ output ++ [data] := by
    intro o2 hlen hlast hsuf
    have ho2ne : o2 ≠ [] := by
      intro h
      rw [h] at hlast
      simp at hlast
    by_cases hc : o2.foldl (fun sum s => sum + s.length) (0 : Nat) > 10 * 1024 * 1024
    · refine ⟨?_, ?_, ?_⟩
      · simp only [if_pos hc]
        exact le_trans (lastN_length_le 100 o2) (by omega)
      · simp only [if_pos hc]
        rw [lastN_getLast? 100 o2 (by omega) ho2ne]
        exact hlast
      · simp only [if_pos hc]
        exact (lastN_suffix 100 o2).trans hsuf
    · simpa only [if_neg hc] using ⟨hlen, hlast, hsuf⟩
  unfold pushWithEviction
  by_cases hc1 : (output ++ [data]).length > 1000
  · simp only [if_pos hc1]
    refine h2len (lastN 1000 (output ++ [data])) (lastN_length_le 1000 _) ?_ ?_
    · rw [lastN_getLast? 1000 _ (by omega) h1ne]
      exact h1last
    · exact lastN_suffix 1000 _
  · simp only [if_neg hc1]
    exact h2len (output ++ [data]) (by omega) h1last List.suffix_rfl

/-- On a present, attached session the data handler performs exactly the
log/batching update. -/
theorem onData_attached (sid : Nat) (data : String) (st : PMState)
    (session : ClaudeSession)
    (hs : lookupA sid st.sessions = some session)
    (hp : session.claudeProcess.isSome = true) :
    onData sid data st =
      updateSession sid
        { session with
            output := pushWithEviction session.output data,
            emitTimer := true,
            pendingOutput := session.pendingOutput ++ data }
        { st with timers := if session.emitTimer then st.timers
                            else st.timers ++ [TimerKind.emitBatch sid 16] } := by
  unfold onData
  rw [hs]
  have hnone : session.claudeProcess.isNone = false := by
    cases hcp : session.claudeProcess
    · rw [hcp] at hp
      simp at hp
    · simp
  simp [hnone]

/-! ## The claims -/

/-- **C1** (code bug): while a process is attached, the data handler of
ProcessManagerPTY does *not* feed the chunk to the Output Classifier: on the
chunk "Creating tests." — which the classifier maps to phase `working` — the
session's ProgressState is left exactly as it was (still `c1PS`, the start-up
thinking state), no recent-output sample is recorded, and no event (in
particular no progress event) is emitted from the data path. The fourth
conjunct shows the classifier verdict the handler would have had to apply.
The heavy processing is explicitly disabled in the source ("Skip heavy
processing for now ... TODO: Re-enable after fixing the hang issue"). -/
theorem onData_skips_classifier :
    ((lookupA 1 (onData 1 "Creating tests." c1State).sessions).map
      (fun s => s.progressState)) = some (some c1PS)
    ∧ (onData 1 "Creating tests." c1State).recentOutputs = [(1, [])]
    ∧ (onData 1 "Creating tests." c1State).events = []
    ∧ analyzeOutput "Creating tests." =
        { phase := "working", status := "Creating tests..." } := by
  refine ⟨by decide, by decide, by decide, by decide⟩

/-- **C2** (code bug): `stopClaudeCode` writes EOT, schedules the 2 s
forced-kill timer and immediately clears the live handle — but because the
handle is cleared synchronously, the timer callback finds `claudeProcess`
already `undefined` when it fires, so it kills nothing: firing the grace
timer is a no-op (the state is unchanged, no `ptyKill` is recorded) and the
OS process (handle 7), which never exited on its own, is still alive. -/
theorem stopClaudeCode_graceKill_dead :
    (stopClaudeCode 1 c2State).events = [Event.ptyWrite 1 eotStr]
    ∧ ((lookupA 1 (stopClaudeCode 1 c2State).sessions).map (fun s => s.claudeProcess))
        = some none
    ∧ (stopClaudeCode 1 c2State).timers = [TimerKind.killAfterGrace 1 2000]
    ∧ fireTimer (TimerKind.killAfterGrace 1 2000) (stopClaudeCode 1 c2State)
        = stopClaudeCode 1 c2State
    ∧ (7 : Nat) ∈ (fireTimer (TimerKind.killAfterGrace 1 2000) (stopClaudeCode 1 c2State)).alive := by
  refine ⟨by decide, by decide, by decide, by decide, by decide⟩

/-- **C5** counterexample: on a file whose contents are not valid JSON,
`loadState` returns null but leaves the corrupt file exactly as it was — the
claim's "deletes the state file when its contents parsed as invalid JSON" is
false of the code, which contains no unlink on the load path (the deletion the
claim describes is what `clearState` would produce, shown in the third
conjunct, and `clearState` has no caller there). -/
theorem loadState_keeps_corrupt_file :
    loadState (StateFile.invalid "not json") = (none, StateFile.invalid "not json")
    ∧ loadState (StateFile.invalid "not json") ≠ (none, StateFile.missing)
    ∧ clearState (StateFile.invalid "not json") = StateFile.missing := by
  refine ⟨rfl, ?_, rfl⟩
  intro h
  have h2 : StateFile.invalid "not json" = StateFile.missing := congrArg Prod.snd h
  exact StateFile.noConfusion h2

/-- **C5** amended: `loadState` returns "no saved state" (null) instead of
raising on every read or parse failure — missing file, contents that are not
valid JSON (which includes an empty file), and a parsed document whose
`projects` (or `commandHistory`) field is absent or not an array — but it
never deletes the state file: in every case the file is left unchanged. -/
theorem loadState_failure_null_file_kept (raw : String) (doc : Json)
    (hshape : decodeState doc = none) :
    loadState StateFile.missing = (none, StateFile.missing)
    ∧ loadState (StateFile.invalid raw) = (none, StateFile.invalid raw)
    ∧ loadState (StateFile.valid doc) = (none, StateFile.valid doc) := by
  refine ⟨rfl, rfl, ?_⟩
  simp [loadState, hshape]

theorem loadState_failure_null_file_kept_witness :
    loadState (StateFile.valid notAnArrayDoc) = (none, StateFile.valid notAnArrayDoc)
    ∧ loadState (StateFile.invalid "") = (none, StateFile.invalid "") :=
  ⟨(loadState_failure_null_file_kept "" notAnArrayDoc rfl).2.2,
   (loadState_failure_null_file_kept "" notAnArrayDoc rfl).2.1⟩

/-- **C6**: whatever the prior output log of an attached session, after the
data handler runs the log holds at most 1000 chunks, the newly appended chunk
is its last entry, and the log is a suffix of the old log extended by the new
chunk — i.e. eviction removes only the oldest entries (FIFO). -/
theorem outputLog_eviction (sid : Nat) (data : String) (st : PMState)
    (session : ClaudeSession)
    (hs : lookupA sid st.sessions = some session)
    (hp : session.claudeProcess.isSome = true) :
    ∃ session2, lookupA sid (onData sid data st).sessions = some session2 ∧
      session2.output.length ≤ 1000 ∧
      session2.output.getLast? = some data ∧
      session2.output <:+ session.output ++ [data] := by
  rw [onData_attached sid data st session hs hp]
  obtain ⟨hlen, hlast, hsuf⟩ := pushWithEviction_spec session.output data
  exact ⟨_, lookupA_insertA_self sid _ _, hlen, hlast, hsuf⟩

theorem outputLog_eviction_witness :
    ∃ session2, lookupA 1 (onData 1 "x" c6State).sessions = some session2 ∧
      session2.output.length ≤ 1000 ∧
      session2.output.getLast? = some "x" ∧
      session2.output <:+ c6Session.output ++ ["x"] :=
  outputLog_eviction 1 "x" c6State c6Session rfl rfl

/-- **C3** counterexample: the claim says every byte string ending in a
carriage return triggers the progress reset. It does not: `"hi\r"` ends in CR
but `sendCommand` leaves session 1 in its prior `complete`/inactive progress
state (the reset fires only on a command *equal* to `"\r"` or `"\n"`), and
even an exact `"\r"` performs no reset when the session (session 2) has no
progressState yet. -/
theorem sendCommand_trailing_cr_no_reset :
    endsInCR "hi\x0d" = true
    ∧ progressResetTo 1 9999 (sendCommand 1 "hi\x0d" 9999 c3State) = false
    ∧ endsInCR "\x0d" = true
    ∧ progressResetTo 2 9999 (sendCommand 2 "\x0d" 9999 c3State) = false := by
  refine ⟨by decide, by decide, by decide, by decide⟩

/-- **C3** amended: for a session with an attached process, `sendCommand`
resets ProgressState to phase=thinking, isActive=true with a fresh startTime
precisely in the case the code implements — the command is exactly `"\r"` or
exactly `"\n"` and the session already has a progressState. -/
theorem sendCommand_enter_resets_progress (sid : Nat) (cmd : String) (now : Int)
    (st : PMState) (session : ClaudeSession) (ps : ProgressState)
    (hs : lookupA sid st.sessions = some session)
    (hp : session.claudeProcess.isSome = true)
    (hps : session.progressState = some ps)
    (hcmd : cmd = "\x0d" ∨ cmd = "\n") :
    ∃ st2, sendCommand sid cmd now st = .ok st2 ∧
      (lookupA sid st2.sessions).map (fun s => s.progressState) =
        some (some { isActive := true, status := "Processing command...",
                     startTime := some now, lastOutputTime := some now,
                     outputRate := 0, phase := "thinking" }) := by
  obtain ⟨h, hh⟩ := Option.isSome_iff_exists.mp hp
  simp only [sendCommand, hs, hh, hps]
  rw [if_pos hcmd]
  refine ⟨_, rfl, ?_⟩
  simp [updateSession, lookupA_insertA_self]

theorem sendCommand_enter_resets_progress_witness :
    ∃ st2, sendCommand 1 "\x0d" 7777 c3State = .ok st2 ∧
      (lookupA 1 st2.sessions).map (fun s => s.progressState) =
        some (some { isActive := true, status := "Processing command...",
                     startTime := some 7777, lastOutputTime := some 7777,
                     outputRate := 0, phase := "thinking" }) :=
  sendCommand_enter_resets_progress 1 "\x0d" 7777 c3State c3SessionA c3PS rfl rfl rfl
    (Or.inl rfl)

/-- **C4** counterexample: `clearSessionOutput` performs no reset of the
recent-output samples: on a state whose session 1 has a sample recorded at
t=10000, the samples survive the clear, and an output rate computed right
after the clear (at t=10500, window 5 s) is 2 chars/s, not 0 — refuting
"no recent-output samples recorded before the clear contribute to the next
computed output rate". -/
theorem clearSessionOutput_residual_rate :
    ¬ clearResetsRateTracking 1 10500 10500 c4State := by
  unfold clearResetsRateTracking
  decide

/-- **C4** amended: for every known session, `clearSessionOutput` empties the
output log and emits the output-cleared event, but it leaves the dependent
progress tracking (the recent-output sample map) untouched. -/
theorem clearSessionOutput_clears_log_only (sid : Nat) (now : Int) (st : PMState)
    (session : ClaudeSession) (hs : lookupA sid st.sessions = some session) :
    (lookupA sid (clearSessionOutput sid now st).sessions).map (fun s => s.output)
      = some []
    ∧ (clearSessionOutput sid now st).events
      = st.events ++ [Event.outputCleared sid session.projectId]
    ∧ (clearSessionOutput sid now st).recentOutputs = st.recentOutputs := by
  simp only [clearSessionOutput, hs]
  refine ⟨?_, ?_, ?_⟩ <;> simp [updateSession, lookupA_insertA_self]

theorem clearSessionOutput_clears_log_only_witness :
    (lookupA 1 (clearSessionOutput 1 10500 c4State).sessions).map (fun s => s.output)
      = some []
    ∧ (clearSessionOutput 1 10500 c4State).events
      = c4State.events ++ [Event.outputCleared 1 c4Session.projectId]
    ∧ (clearSessionOutput 1 10500 c4State).recentOutputs = c4State.recentOutputs :=
  clearSessionOutput_clears_log_only 1 10500 c4State c4Session rfl

/-! ## The code's pattern tables coincide with the spec's rule predicates -/

theorem waitingPats_eq_spec (t : String) : anyMatch waitingPats t = specWaiting t := by
  simp [anyMatch, waitingPats, specWaiting, ptest, Bool.or_assoc]

theorem completePats_eq_spec (t : String) : anyMatch completePats t = specComplete t := by
  simp [anyMatch, completePats, specComplete, ptest, Bool.or_assoc]

theorem errorPats_eq_spec (t : String) : anyMatch errorPats t = specError t := by
  simp [anyMatch, errorPats, specError, ptest, Bool.or_assoc]

theorem startingPats_eq_spec (t : String) : anyMatch startingPats t = specTaskOpening t := by
  simp [anyMatch, startingPats, specTaskOpening, ptest, Bool.or_assoc]

theorem creatingPats_eq_spec (t : String) : anyMatch creatingPats t = specCreating t := by
  simp [anyMatch, creatingPats, specCreating, ptest, Bool.or_assoc]

theorem executingPats_eq_spec (t : String) : anyMatch executingPats t = specExecuting t := by
  simp [anyMatch, executingPats, specExecuting, ptest, Bool.or_assoc]

theorem analyzingPats_eq_spec (t : String) : anyMatch analyzingPats t = specAnalyzing t := by
  simp [anyMatch, analyzingPats, specAnalyzing, ptest, Bool.or_assoc]

theorem thinkingPats_eq_spec (t : String) : anyMatch thinkingPats t = specThinking t := by
  simp [anyMatch, thinkingPats, specThinking, ptest, Bool.or_assoc]

theorem startThink_eq_spec (t : String) :
    anyMatch (startingPats ++ thinkingPats) t = (specTaskOpening t || specThinking t) := by
  simp [anyMatch, startingPats, thinkingPats, specTaskOpening, specThinking, ptest,
    Bool.or_assoc]

/-- **C7**: `isStillActive` returns false whenever the last output matches a
waiting or completion pattern; under silence longer than 30000 ms it returns
true exactly when the last output matches a starting or thinking pattern;
otherwise it returns true — together with the four concrete evaluations the
spec lists. -/
theorem isStillActive_spec :
    (∀ (text : String) (millis : Int),
      isStillActive text millis =
        if specWaiting text || specComplete text then false
        else if millis > 30000 then specTaskOpening text || specThinking text
        else true)
    ∧ (∀ millis : Int, isStillActive "Would you like me to continue?" millis = false)
    ∧ isStillActive "Creating file." 5000 = true
    ∧ isStillActive "Let me think about this" 45000 = true
    ∧ isStillActive "Generic text" 45000 = false := by
  refine ⟨?_, ?_, by decide, by decide, by decide⟩
  · intro t m
    unfold isStillActive
    rw [waitingPats_eq_spec, completePats_eq_spec, startThink_eq_spec]
    cases hw : specWaiting t <;> cases hc : specComplete t <;> simp
  · intro m
    have hw : anyMatch waitingPats "Would you like me to continue?" = true := by decide
    simp [isStillActive, hw]

/-- **C8**: `analyzeOutput` applies exactly the spec's rules in the spec's
priority order with first match winning — it coincides with
`analyzeOutputSpec`, the classifier written from the spec's sentence. -/
theorem analyzeOutput_follows_spec_priority :
    ∀ text, analyzeOutput text = analyzeOutputSpec text := by
  intro t
  simp only [analyzeOutput, analyzeOutputSpec]
  rw [waitingPats_eq_spec, completePats_eq_spec, errorPats_eq_spec, startingPats_eq_spec,
    creatingPats_eq_spec, executingPats_eq_spec, analyzingPats_eq_spec, thinkingPats_eq_spec]

/-! ## Lemmas for the removal cascade -/

theorem stopClaudeCode_sessions_other (sid sid2 : Nat) (st : PMState) (h : sid2 ≠ sid) :
    lookupA sid2 (stopClaudeCode sid st).sessions = lookupA sid2 st.sessions := by
  have h2 : sid ≠ sid2 := Ne.symm h
  cases hl : lookupA sid st.sessions with
  | none => simp [stopClaudeCode, hl]
  | some session =>
    cases hcp : session.claudeProcess with
    | none => simp [stopClaudeCode, hl, hcp]
    | some hdl =>
      simp [stopClaudeCode, hl, hcp, updateSession, apply_ite, lookupA_insertA_ne, h2]

theorem stopClaudeCode_events (sid : Nat) (st : PMState) :
    ∃ E, (stopClaudeCode sid st).events = st.events ++ E := by
  cases hl : lookupA sid st.sessions with
  | none => exact ⟨[], by simp [stopClaudeCode, hl]⟩
  | some session =>
    cases hcp : session.claudeProcess with
    | none => exact ⟨[], by simp [stopClaudeCode, hl, hcp]⟩
    | some hdl =>
      refine ⟨[Event.ptyWrite sid eotStr], ?_⟩
      simp [stopClaudeCode, hl, hcp, updateSession, apply_ite]

theorem stopClaudeCode_writes_eot (sid : Nat) (st : PMState) (session : ClaudeSession)
    (hs : lookupA sid st.sessions = some session)
    (hp : session.claudeProcess.isSome = true) :
    Event.ptyWrite sid eotStr ∈ (stopClaudeCode sid st).events := by
  obtain ⟨h, hh⟩ := Option.isSome_iff_exists.mp hp
  simp [stopClaudeCode, hs, hh, updateSession, apply_ite]

theorem removeSession_lookup_self (sid : Nat) (st : PMState) :
    lookupA sid (removeSession sid st).2.sessions = none := by
  cases hl : lookupA sid st.sessions with
  | none => simp [removeSession, hl]
  | some session =>
    by_cases hcp : session.claudeProcess.isSome = true
    · cases hlp : lookupA session.projectId (stopClaudeCode sid st).projects with
      | none => simp [removeSession, hl, hcp, hlp, lookupA_eraseA_self]
      | some project => simp [removeSession, hl, hcp, hlp, lookupA_eraseA_self]
    · cases hlp : lookupA session.projectId st.projects with
      | none => simp [removeSession, hl, hcp, hlp, lookupA_eraseA_self]
      | some project => simp [removeSession, hl, hcp, hlp, lookupA_eraseA_self]

theorem removeSession_sessions_other (sid sid2 : Nat) (st : PMState) (h : sid2 ≠ sid) :
    lookupA sid2 (removeSession sid st).2.sessions = lookupA sid2 st.sessions := by
  have h2 : sid ≠ sid2 := Ne.symm h
  have hstop : lookupA sid2 (stopClaudeCode sid st).sessions = lookupA sid2 st.sessions :=
    stopClaudeCode_sessions_other sid sid2 st h
  cases hl : lookupA sid st.sessions with
  | none => simp [removeSession, hl]
  | some session =>
    by_cases hcp : session.claudeProcess.isSome = true
    · cases hlp : lookupA session.projectId (stopClaudeCode sid st).projects with
      | none => simp [removeSession, hl, hcp, hlp, lookupA_eraseA_ne, h2, hstop]
      | some project => simp [removeSession, hl, hcp, hlp, lookupA_eraseA_ne, h2, hstop]
    · cases hlp : lookupA session.projectId st.projects with
      | none => simp [removeSession, hl, hcp, hlp, lookupA_eraseA_ne, h2]
      | some project => simp [removeSession, hl, hcp, hlp, lookupA_eraseA_ne, h2]

theorem removeSession_events (sid : Nat) (st : PMState) :
    ∃ E, (removeSession sid st).2.events = st.events ++ E := by
  cases hl : lookupA sid st.sessions with
  | none => exact ⟨[], by simp [removeSession, hl]⟩
  | some session =>
    by_cases hcp : session.claudeProcess.isSome = true
    · obtain ⟨E0, hE0⟩ := stopClaudeCode_events sid st
      refine ⟨E0 ++ [Event.sessionRemoved session.projectId sid], ?_⟩
      cases hlp : lookupA session.projectId (stopClaudeCode sid st).projects with
      | none => simp [removeSession, hl, hcp, hlp, hE0]
      | some project => simp [removeSession, hl, hcp, hlp, hE0]
    · refine ⟨[Event.sessionRemoved session.projectId sid], ?_⟩
      cases hlp : lookupA session.projectId st.projects with
      | none => simp [removeSession, hl, hcp, hlp]
      | some project => simp [removeSession, hl, hcp, hlp]

theorem removeSession_events_mem (a : Nat) (st : PMState) (e : Event)
    (he : e ∈ st.events) : e ∈ (removeSession a st).2.events := by
  obtain ⟨E, hE⟩ := removeSession_events a st
  rw [hE]
  exact List.mem_append_left _ he

theorem removeSession_writes_eot (sid : Nat) (st : PMState) (session : ClaudeSession)
    (hs : lookupA sid st.sessions = some session)
    (hp : session.claudeProcess.isSome = true) :
    Event.ptyWrite sid eotStr ∈ (removeSession sid st).2.events := by
  have hw := stopClaudeCode_writes_eot sid st session hs hp
  cases hlp : lookupA session.projectId (stopClaudeCode sid st).projects with
  | none => simp [removeSession, hs, hp, hlp, hw]
  | some project => simp [removeSession, hs, hp, hlp, hw]

theorem removeSession_preserves_none (sid a : Nat) (st : PMState)
    (hnone : lookupA sid st.sessions = none) :
    lookupA sid (removeSession a st).2.sessions = none := by
  by_cases h : sid = a
  · subst h
    exact removeSession_lookup_self sid st
  · rw [removeSession_sessions_other a sid st h]
    exact hnone

theorem removeAll_preserves_none (ids : List Nat) (sid : Nat) (st : PMState)
    (hnone : lookupA sid st.sessions = none) :
    lookupA sid (removeAll ids st).sessions = none := by
  induction ids generalizing st with
  | nil => exact hnone
  | cons a rest ih =>
    exact ih (removeSession a st).2 (removeSession_preserves_none sid a st hnone)

theorem removeAll_lookup_none (ids : List Nat) (sid : Nat) (st : PMState)
    (hmem : sid ∈ ids) :
    lookupA sid (removeAll ids st).sessions = none := by
  induction ids generalizing st with
  | nil => cases hmem
  | cons a rest ih =>
    by_cases h : sid = a
    · subst h
      exact removeAll_preserves_none rest sid (removeSession sid st).2
        (removeSession_lookup_self sid st)
    · have hrest : sid ∈ rest := by
        cases List.mem_cons.mp hmem with
        | inl heq => exact absurd heq h
        | inr hr => exact hr
      exact ih (removeSession a st).2 hrest

theorem removeAll_events (ids : List Nat) (st : PMState) :
    ∃ E, (removeAll ids st).events = st.events ++ E := by
  induction ids generalizing st with
  | nil => exact ⟨[], by simp [removeAll]⟩
  | cons a rest ih =>
    obtain ⟨E1, hE1⟩ := removeSession_events a st
    obtain ⟨E2, hE2⟩ := ih (removeSession a st).2
    refine ⟨E1 ++ E2, ?_⟩
    show (removeAll rest (removeSession a st).2).events = st.events ++ (E1 ++ E2)
    rw [hE2, hE1, List.append_assoc]

theorem removeAll_events_mem (ids : List Nat) (st : PMState) (e : Event)
    (he : e ∈ st.events) : e ∈ (removeAll ids st).events := by
  obtain ⟨E, hE⟩ := removeAll_events ids st
  rw [hE]
  exact List.mem_append_left _ he

theorem removeAll_writes_eot (ids : List Nat) (sid : Nat) (st : PMState)
    (session : ClaudeSession) (hmem : sid ∈ ids)
    (hs : lookupA sid st.sessions = some session)
    (hp : session.claudeProcess.isSome = true) :
    Event.ptyWrite sid eotStr ∈ (removeAll ids st).events := by
  induction ids generalizing st with
  | nil => cases hmem
  | cons a rest ih =>
    by_cases h : sid = a
    · subst h
      exact removeAll_events_mem rest (removeSession sid st).2 _
        (removeSession_writes_eot sid st session hs hp)
    · have hrest : sid ∈ rest := by
        cases List.mem_cons.mp hmem with
        | inl heq => exact absurd heq h
        | inr hr => exact hr
      have hkeep : lookupA sid (removeSession a st).2.sessions = some session := by
        rw [removeSession_sessions_other a sid st h]
        exact hs
      exact ih (removeSession a st).2 hrest hkeep

/-- **C9**: `removeProject` returns false on an unknown project id; on a known
project it removes every child session (none survives in the registry),
signals EOT on the pty of every child whose live handle is attached, and only
then emits the project-removed event — the last event of the trace, after all
the EOT writes. -/
theorem removeProject_cascades (pid : Nat) (st : PMState) :
    (lookupA pid st.projects = none → removeProject pid st = (false, st))
    ∧ ∀ project, lookupA pid st.projects = some project →
        (removeProject pid st).1 = true
        ∧ lookupA pid (removeProject pid st).2.projects = none
        ∧ (∀ sid, sid ∈ project.sessionIds →
            lookupA sid (removeProject pid st).2.sessions = none)
        ∧ (removeProject pid st).2.events.getLast? = some (Event.projectRemoved pid)
        ∧ (∀ sid session, sid ∈ project.sessionIds →
            lookupA sid st.sessions = some session →
            session.claudeProcess.isSome = true →
            Event.ptyWrite sid eotStr ∈ (removeProject pid st).2.events.dropLast) := by
  constructor
  · intro h
    simp [removeProject, h]
  · intro project hp
    have hred : removeProject pid st =
        (true, { removeAll project.sessionIds st with
                   projects := eraseA pid (removeAll project.sessionIds st).projects,
                   events := (removeAll project.sessionIds st).events
                     ++ [Event.projectRemoved pid] }) := by
      simp [removeProject, hp]
    rw [hred]
    refine ⟨rfl, lookupA_eraseA_self pid _, ?_, by simp, ?_⟩
    · intro sid hmem
      exact removeAll_lookup_none project.sessionIds sid st hmem
    · intro sid session hmem hs hcp
      have hw := removeAll_writes_eot project.sessionIds sid st session hmem hs hcp
      simpa using hw

theorem removeProject_cascades_witness :
    removeProject 99 c9State = (false, c9State)
    ∧ (removeProject 0 c9State).1 = true
    ∧ lookupA 0 (removeProject 0 c9State).2.projects = none
    ∧ lookupA 1 (removeProject 0 c9State).2.sessions = none
    ∧ (removeProject 0 c9State).2.events.getLast? = some (Event.projectRemoved 0)
    ∧ Event.ptyWrite 1 eotStr ∈ (removeProject 0 c9State).2.events.dropLast :=
  ⟨(removeProject_cascades 99 c9State).1 rfl,
   ((removeProject_cascades 0 c9State).2 c9Project rfl).1,
   ((removeProject_cascades 0 c9State).2 c9Project rfl).2.1,
   ((removeProject_cascades 0 c9State).2 c9Project rfl).2.2.1 1 (by simp [c9Project]),
   ((removeProject_cascades 0 c9State).2 c9Project rfl).2.2.2.1,
   ((removeProject_cascades 0 c9State).2 c9Project rfl).2.2.2.2 1 c9Session
     (by simp [c9Project]) rfl rfl⟩

/-- **C10**: `createProject` performs no duplicate-path check: for any file
system on which the path exists and is a directory, creating two projects at
the same path succeeds from any registry state (including one that already
holds that path), and afterwards two projects with distinct ids and the same
path coexist in the registry. -/
theorem createProject_no_duplicate_path_check (fsys : FileSystem)
    (name1 name2 path : String) (now1 now2 : Int) (st : PMState)
    (hex : fsys.existsSync path = true) (hdir : fsys.isDirectory path = true) :
    ∃ p1 st1 p2 st2,
      createProject fsys name1 path now1 st = .ok (p1, st1)
      ∧ createProject fsys name2 path now2 st1 = .ok (p2, st2)
      ∧ p1.id ≠ p2.id
      ∧ p1.path = path ∧ p2.path = path
      ∧ (lookupA p1.id st2.projects).map (fun p => p.path) = some path
      ∧ (lookupA p2.id st2.projects).map (fun p => p.path) = some path := by
  have hne : st.nextId + 1 ≠ st.nextId := by omega
  refine ⟨{ id := st.nextId, name := name1, path := path, sessionIds := [],
            createdAt := now1, updatedAt := now1 },
          { st with
              nextId := st.nextId + 1,
              projects := insertA st.nextId
                { id := st.nextId, name := name1, path := path, sessionIds := [],
                  createdAt := now1, updatedAt := now1 } st.projects,
              events := st.events ++ [Event.projectCreated st.nextId] },
          { id := st.nextId + 1, name := name2, path := path, sessionIds := [],
            createdAt := now2, updatedAt := now2 },
          { st with
              nextId := st.nextId + 1 + 1,
              projects := insertA (st.nextId + 1)
                { id := st.nextId + 1, name := name2, path := path, sessionIds := [],
                  createdAt := now2, updatedAt := now2 }
                (insertA st.nextId
                  { id := st.nextId, name := name1, path := path, sessionIds := [],
                    createdAt := now1, updatedAt := now1 } st.projects),
              events := (st.events ++ [Event.projectCreated st.nextId])
                ++ [Event.projectCreated (st.nextId + 1)] },
          ?_, ?_, by simp, rfl, rfl, ?_, ?_⟩
  · simp [createProject, hex, hdir]
  · simp [createProject, hex, hdir]
  · simp [lookupA_insertA_ne, lookupA_insertA_self, hne]
  · simp [lookupA_insertA_self]

theorem createProject_no_duplicate_path_check_witness :
    ∃ p1 st1 p2 st2,
      createProject allDirs "alpha" "/tmp/p" 100 c10State = .ok (p1, st1)
      ∧ createProject allDirs "beta" "/tmp/p" 200 st1 = .ok (p2, st2)
      ∧ p1.id ≠ p2.id
      ∧ p1.path = "/tmp/p" ∧ p2.path = "/tmp/p"
      ∧ (lookupA p1.id st2.projects).map (fun p => p.path) = some "/tmp/p"
      ∧ (lookupA p2.id st2.projects).map (fun p => p.path) = some "/tmp/p" :=
  createProject_no_duplicate_path_check allDirs "alpha" "beta" "/tmp/p" 100 200 c10State
    rfl rfl

end Flow
